import Mathlib

/-!
Verification development for the meteostat library.

Each section shallowly embeds one component of the library and proves the
properties claimed by the specification about it.  Pure Python functions
become Lean functions on `ℚ`/`ℕ`/`Option`; frames become lists of rows;
fallible operations return `Option`/`Except`.  Components whose
implementation is absent from the source snapshot (only their tests and
callers are present) are modelled from the specification and carry a
`Modelled from the spec:` note in their doc comment.
-/

namespace Meteostat

/-! ## Unit conversions (`meteostat/units.py` and `meteostat/utils/conversions.py`)

Both modules define a `to_direction` function converting a degree value to a
compass label.  The values are embedded as rationals; a missing value
(Python `None`/`NaN`) is the `none` case of the `Option` argument of the
`conversions.py` variant. -/

/-- The `to_direction` function from `meteostat/units.py`: a chain of interval checks on
the raw degree value; later checks overwrite earlier ones. -/
def unitsToDirection (value : ℚ) : Option String :=
  let wdir : Option String := none
  let wdir := if (337 ≤ value ∧ value ≤ 360) ∨ value ≤ 23 then some ("N") else wdir
  let wdir := if 24 ≤ value ∧ value ≤ 68 then some ("NE") else wdir
  let wdir := if 69 ≤ value ∧ value ≤ 113 then some ("E") else wdir
  let wdir := if 114 ≤ value ∧ value ≤ 158 then some ("SE") else wdir
  let wdir := if 159 ≤ value ∧ value ≤ 203 then some ("S") else wdir
  let wdir := if 204 ≤ value ∧ value ≤ 248 then some ("SW") else wdir
  let wdir := if 249 ≤ value ∧ value ≤ 293 then some ("W") else wdir
  let wdir := if 294 ≤ value ∧ value ≤ 336 then some ("NW") else wdir
  wdir

/-- Python's float modulo `value % 360` on rationals:
`value - 360 * ⌊value / 360⌋`. -/
def pymod360 (value : ℚ) : ℚ := value - 360 * ⌊value / 360⌋

/-- The `to_direction` function from `meteostat/utils/conversions.py`: returns `None` for a
`None`/`NaN` input, normalizes the value with `% 360`, then runs the same
chain of interval checks as the `units.py` variant. -/
def conversionsToDirection (value? : Option ℚ) : Option String :=
  match value? with
  | none => none
  | some v =>
    let value := pymod360 v
    let wdir : Option String := none
    let wdir := if (337 ≤ value ∧ value ≤ 360) ∨ value ≤ 23 then some ("N") else wdir
    let wdir := if 24 ≤ value ∧ value ≤ 68 then some ("NE") else wdir
    let wdir := if 69 ≤ value ∧ value ≤ 113 then some ("E") else wdir
    let wdir := if 114 ≤ value ∧ value ≤ 158 then some ("SE") else wdir
    let wdir := if 159 ≤ value ∧ value ≤ 203 then some ("S") else wdir
    let wdir := if 204 ≤ value ∧ value ≤ 248 then some ("SW") else wdir
    let wdir := if 249 ≤ value ∧ value ≤ 293 then some ("W") else wdir
    let wdir := if 294 ≤ value ∧ value ≤ 336 then some ("NW") else wdir
    wdir

/-! ## Configuration service (`meteostat/api/config.py`)

`ConfigService.load_env` walks the environment, strips the prefix from each
matching variable name (Python `key.replace(self._prefix, "").lower()`),
parses the value with `_parse_env_value` and, unless parsing returned the
skip sentinel, assigns the result to the configuration attribute.

The Python helpers `json.loads`, `extract_property_type` and
`validate_parsed_value` live outside the embedded module (standard library
and `meteostat/utils/types.py`); they are abstracted as the fields of an
`EnvContext`.  The attribute map is a function `String → V`; logging is
returned as an explicit list.  `loadEnv` is a total function: the model has
no abort path, mirroring the fact that every failure branch of
`_parse_env_value` returns the `_SKIP_VALUE` sentinel instead of raising. -/

/-- Python's `str.replace` (replace all occurrences), char-list worker with
explicit fuel so that it is structurally recursive. -/
def pyReplaceAux (pattern replacement : List Char) : ℕ → List Char → List Char
  | 0, s => s
  | _ + 1, [] => []
  | fuel + 1, c :: rest =>
    if pattern.isPrefixOf (c :: rest) then
      replacement ++ pyReplaceAux pattern replacement fuel ((c :: rest).drop pattern.length)
    else
      c :: pyReplaceAux pattern replacement fuel rest

/-- Python's `str.replace` on strings; an empty pattern leaves the string
unchanged (which is what `key.replace("", "")` produces). -/
def pyReplace (s pattern replacement : String) : String :=
  if pattern.data.isEmpty then s
  else ⟨pyReplaceAux pattern.data replacement.data s.data.length s.data⟩

/-- Python's `str.lower`. -/
def pyLower (s : String) : String := ⟨s.data.map Char.toLower⟩

/-- Python's `str.startswith`. -/
def pyStartsWith (s pfx : String) : Bool := pfx.data.isPrefixOf s.data

/-- The external helpers used by `ConfigService._parse_env_value`:
`extract_property_type` (raises `ValueError` for an unknown property,
returns `None` when the property has no type annotation), the property-type
predicate `expected_type is str`, `json.loads`, and
`validate_parsed_value` (raises on validation failure).  `V` is the type of
attribute values, `P` the type of extracted property types. -/
structure EnvContext (V P : Type) where
  extractPropertyType : String → Option (Option P)
  isStrType : P → Bool
  jsonLoads : String → Option V
  validateParsedValue : V → P → Option V
  ofString : String → V

/-- Outcome of `ConfigService._parse_env_value`: the three `_SKIP_VALUE`
branches (unknown property, JSON parse failure, validation failure) and the
successful branch carrying the value to assign. -/
inductive ParseOutcome (V : Type) where
  | skipUnknown : ParseOutcome V
  | skipParse : ParseOutcome V
  | skipValidate : ParseOutcome V
  | value : V → ParseOutcome V
deriving DecidableEq

/-- The method `ConfigService._parse_env_value` from `meteostat/api/config.py`. -/
def parseEnvValue {V P : Type} (ctx : EnvContext V P) (key value : String) :
    ParseOutcome V :=
  match ctx.extractPropertyType key with
  | none => .skipUnknown
  | some none =>
    match ctx.jsonLoads value with
    | none => .skipParse
    | some parsed => .value parsed
  | some (some t) =>
    if ctx.isStrType t then .value (ctx.ofString value)
    else
      match ctx.jsonLoads value with
      | none => .skipParse
      | some parsed =>
        match ctx.validateParsedValue parsed t with
        | none => .skipValidate
        | some v => .value v

/-- Log levels used by `_parse_env_value`: `logger.debug` for an unknown
property, `logger.error` for parse and validation failures. -/
inductive LogLevel where
  | debug : LogLevel
  | error : LogLevel
deriving DecidableEq

/-- The environment-variable prefix `ConfigService._prefix`:
`f"{self.prefix}_"` when a prefix is set, `""` otherwise. -/
def envVarPfx (pfxStr : String) : String :=
  if pfxStr = "" then ("") else pfxStr ++ "_"

/-- The method `ConfigService.load_env` from `meteostat/api/config.py`: fold over the
environment, skip variables without the prefix, strip the prefix and
lowercase the name, parse the value, and assign it unless parsing returned
the skip sentinel.  Returns the updated attribute map together with the log
entries emitted by the skip branches. -/
def loadEnv {V P : Type} (ctx : EnvContext V P) (pfxStr : String)
    (environ : List (String × String)) (cfg : String → V) :
    (String → V) × List (LogLevel × String) :=
  environ.foldl
    (fun acc kv =>
      let pfx := envVarPfx pfxStr
      if pyStartsWith kv.1 pfx then
        let key := pyLower (pyReplace kv.1 pfx (""))
        match parseEnvValue ctx key kv.2 with
        | .skipUnknown => (acc.1, acc.2 ++ [(.debug, key)])
        | .skipParse => (acc.1, acc.2 ++ [(.error, key)])
        | .skipValidate => (acc.1, acc.2 ++ [(.error, key)])
        | .value v => (fun k => if k = key then v else acc.1 k, acc.2)
      else acc)
    (cfg, [])

/-! ## Request validator

Modelled from the spec: the validator code itself (invoked by the dispatch
engine's `data_service.fetch`, outside the source snapshot) gates requests
before dispatch when `config.block_large_requests` is set.  Per the spec
(§4.5) and the integration tests `tests/integration/test_large_requests.py`:
hourly requests longer than 3 years and daily requests longer than 30 years
are rejected, where "longer than n years" is the calendar-year difference
`end.year - start.year > n` (the tests fix this reading: 1990-01-01 to
2020-12-31 is "exactly 30 years" and passes, 1990-01-01 to 2021-01-01 is
blocked); monthly and normals requests have no length cap; hourly/daily
requests without a start date are rejected; an absent end date is
normalized to `now`; more than 10 stations are rejected; every rejection is
a typed error whose message mentions the disable flag. -/

/-- A Python `datetime`: only the fields relevant to the validator are
interpreted, but the full date-time shape is kept. -/
structure PyDateTime where
  year : ℤ
  month : ℕ
  day : ℕ
  hour : ℕ
  minute : ℕ
deriving DecidableEq

/-- The four time-series granularities. -/
inductive Granularity where
  | hourly : Granularity
  | daily : Granularity
  | monthly : Granularity
  | normals : Granularity
deriving DecidableEq

/-- A user request as seen by the validator: granularity, target stations,
and the optional time bounds. -/
structure Request where
  granularity : Granularity
  stations : List String
  start : Option PyDateTime
  endTime : Option PyDateTime

/-- The typed rejection reasons raised by the validator (`ValueError`
subclasses in the source; the tests match on the message text). -/
inductive RequestError where
  | tooManyStations : RequestError
  | missingStart : RequestError
  | hourlyRangeTooLong : RequestError
  | dailyRangeTooLong : RequestError
deriving DecidableEq

/-- The shared tail of every rejection message, naming the disable flag. -/
def disableHint : String :=
  " are blocked by default. To disable this behavior, set `config.block_large_requests = False`."

/-- The rejection messages matched by the integration tests. -/
def RequestError.message : RequestError → String
  | .tooManyStations => "Requests with more than 10 stations" ++ disableHint
  | .missingStart => "Hourly and daily requests without a start date" ++ disableHint
  | .hourlyRangeTooLong => "Hourly requests longer than 3 years" ++ disableHint
  | .dailyRangeTooLong => "Daily requests longer than 30 years" ++ disableHint

/-- Modelled from the spec: the request validator (the `check` performed by
the dispatch engine before fan-out, absent from the source snapshot).  All
gates are conditioned on `block_large_requests`; an absent end date is
replaced by `now`; the length gate compares calendar-year differences. -/
def validateRequest (blockLargeRequests : Bool) (now : PyDateTime)
    (req : Request) : Except RequestError Unit :=
  if blockLargeRequests then
    if 10 < req.stations.length then .error .tooManyStations
    else
      match req.granularity with
      | .monthly => .ok ()
      | .normals => .ok ()
      | .hourly =>
        match req.start with
        | none => .error .missingStart
        | some s =>
          if 3 < ((req.endTime.getD now).year - s.year) then .error .hourlyRangeTooLong
          else .ok ()
      | .daily =>
        match req.start with
        | none => .error .missingStart
        | some s =>
          if 30 < ((req.endTime.getD now).year - s.year) then .error .dailyRangeTooLong
          else .ok ()
  else .ok ()

/-- Convenience date constructor (midnight). -/
def mkDate (y : ℤ) (m d : ℕ) : PyDateTime := ⟨y, m, d, 0, 0⟩

/-! ## Time-series façade: `count` and `completeness`

Modelled from the spec: `meteostat/api/timeseries.py` is absent from the
source snapshot (only its unit tests are present).  A `TimeSeries` pairs a
frame with the stations table, the declared `[start, end]` window and the
granularity; `completeness(param?)` divides the non-NaN count by
`expected_rows × stations × columns`, returns `None` when either bound is
unset (no division is attempted), and returns `0.0` when the bounds are set
but the frame is empty.  Timestamps are embedded as abstract grid ticks
(`ℕ`) at the granularity's resolution, so that the expected row count for
the window `[s, e]` is `e + 1 - s`. -/

/-- One row of the canonical frame after squashing: a station, a time tick,
and one optional value per parameter column. -/
structure FrameRow where
  station : String
  time : ℕ
  cells : String → Option ℚ

/-- The time-series façade state: stations table, parameter columns, frame
rows, and the declared window. -/
structure TSFacade where
  stations : List String
  cols : List String
  rows : List FrameRow
  start : Option ℕ
  endTime : Option ℕ

/-- The property `TimeSeries._target_length`: the expected number of grid rows per
station, `0` when either bound is unset. -/
def targetLength (ts : TSFacade) : ℕ :=
  match ts.start, ts.endTime with
  | some s, some e => e + 1 - s
  | _, _ => 0

/-- Non-NaN count of one parameter column. -/
def countCol (ts : TSFacade) (c : String) : ℕ :=
  ts.rows.countP fun r => (r.cells c).isSome

/-- Non-NaN count over the whole frame (`TimeSeries.count()`). -/
def countAll (ts : TSFacade) : ℕ :=
  (ts.cols.map (countCol ts)).sum

/-- The method `TimeSeries.count(param?)`: overall or per column. -/
def tsCount (ts : TSFacade) : Option String → ℕ
  | some c => countCol ts c
  | none => countAll ts

/-- Modelled from the spec: `TimeSeries.completeness(param?)` — `None` when a
bound is unset, `0.0` for an empty frame with both bounds set, otherwise the
non-NaN count divided by `expected_rows × stations` (per column) or
`expected_rows × stations × columns` (overall). -/
def completeness (ts : TSFacade) (p : Option String) : Option ℚ :=
  match ts.start, ts.endTime with
  | some _, some _ =>
    if ts.rows.isEmpty then some 0
    else
      match p with
      | some c =>
        some ((countCol ts c : ℚ) / ((targetLength ts * ts.stations.length : ℕ) : ℚ))
      | none =>
        some ((countAll ts : ℚ) /
          ((targetLength ts * ts.stations.length * ts.cols.length : ℕ) : ℚ))
  | _, _ => none

/-- A sample frame row for the completeness witness. -/
def sampleTsRow (i : ℕ) : FrameRow :=
  ⟨"TEST", i, fun c => if c = "temp" then some 20 else none⟩

/-- A sample complete daily time series: one station, one column, five rows
covering the window `[0, 4]`. -/
def sampleTs : TSFacade :=
  { stations := ["TEST"], cols := ["temp"],
    rows := [sampleTsRow 0, sampleTsRow 1, sampleTsRow 2, sampleTsRow 3, sampleTsRow 4],
    start := some 0, endTime := some 4 }

/-! ## Interpolation: lapse-rate correction

Modelled from the spec: `meteostat/interpolation/lapserate.py` and the
`interpolate` pipeline are absent from the source snapshot (only
`tests/unit/test_lapserate.py` and the integration tests are present).  Per
spec §4.9, `apply_lapse_rate` adjusts each station's temperature columns by
`(lapse_rate / 1000) · (station_elev - point_elev)` before weighting,
leaves NaN temperatures NaN and other columns unchanged, and the pipeline
invokes it when and only when `point.elevation is not None`. -/

/-- One station row fed to the interpolator: the station's elevation and
the per-parameter cells. -/
structure StationsRow where
  elevation : ℚ
  cells : String → Option ℚ

/-- Modelled from the spec: `apply_lapse_rate` from
`meteostat/interpolation/lapserate.py` — shift every present value of a
temperature column by `(lapse_rate / 1000) · (station_elev - point_elev)`;
missing (NaN) values and non-temperature columns pass through. -/
def apply_lapse_rate (tempCols : List String) (elevation lapse_rate : ℚ)
    (df : List StationsRow) : List StationsRow :=
  df.map fun r =>
    { elevation := r.elevation
      cells := fun c =>
        if c ∈ tempCols then
          (r.cells c).map fun v => v + lapse_rate / 1000 * (r.elevation - elevation)
        else r.cells c }

/-- Modelled from the spec: the interpolation pipeline's lapse-rate step —
the correction runs exactly when the target point's elevation is not `None`
(and a lapse rate is set); elevation `0` is a valid value and triggers it. -/
def lapseRateStep (tempCols : List String) (pointElevation : Option ℚ)
    (lapseRate : Option ℚ) (df : List StationsRow) : List StationsRow :=
  match pointElevation, lapseRate with
  | some e, some lr => apply_lapse_rate tempCols e lr df
  | _, _ => df

/-! ## Interpolation: inverse-distance weighting

Modelled from the spec: `meteostat/interpolation/idw.py` is absent from the
source snapshot (only `tests/unit/test_idw.py` is present).  Per spec §4.9,
for each timestamp and continuous parameter column the interpolated value
is `Σ wᵢ·vᵢ / Σ wᵢ` over the stations with a non-NaN value, where
`wᵢ = 1 / effective_distanceᵢ ^ power` is computed in floating point and
may underflow to zero; when there is no valid value or the valid-weight sum
is zero the cell is NaN, never zero.  The cell combiner is embedded over
the already-computed weights (so a float underflow is a zero weight input);
a missing value is `none`. -/

/-- The (weight, value) pairs of the stations whose value is non-NaN in the
column being interpolated. -/
def validPairs (rows : List (ℚ × Option ℚ)) : List (ℚ × ℚ) :=
  rows.filterMap fun r => r.2.map fun v => (r.1, v)

/-- Modelled from the spec: the IDW combination of one parameter cell from
the per-station weights and optional values — NaN (`none`) when no station
has a value or when the valid weights sum to zero, else the weighted mean
over the valid stations. -/
def idwCell (rows : List (ℚ × Option ℚ)) : Option ℚ :=
  let valid := validPairs rows
  if valid.isEmpty then none
  else if (valid.map fun p => p.1).sum = 0 then none
  else some ((valid.map fun p => p.1 * p.2).sum / (valid.map fun p => p.1).sum)

/-! ## Station catalog: haversine distance with acos clamping

Modelled from the spec: `meteostat/api/stations.py` is absent from the
source snapshot (only `tests/unit/test_stations_math.py` is present).  Per
spec §4.3, `nearby` computes the great-circle distance
`6371000 · acos(cos(radians(lat₁))·cos(radians(lat₂))·cos(radians(lon₂) -
radians(lon₁)) + sin(radians(lat₁))·sin(radians(lat₂)))` inside SQL, with
the user-registered `acos` clamping its argument to `[-1, 1]` to absorb
floating-point overshoot at identical or antipodal points. -/

/-- Degrees to radians, the SQL-registered `radians`. -/
noncomputable def radiansDeg (θ : ℝ) : ℝ := θ * (Real.pi / 180)

/-- The clamp applied to the `acos` argument by the registered function. -/
noncomputable def clampAcosArg (x : ℝ) : ℝ := max (-1) (min 1 x)

/-- The SQL-registered `acos` with its argument clamped to `[-1, 1]`. -/
noncomputable def acosClamped (x : ℝ) : ℝ := Real.arccos (clampAcosArg x)

/-- The spherical-law-of-cosines argument of the `nearby` query. -/
noncomputable def haversineArg (lat1 lon1 lat2 lon2 : ℝ) : ℝ :=
  Real.cos (radiansDeg lat1) * Real.cos (radiansDeg lat2) *
      Real.cos (radiansDeg lon2 - radiansDeg lon1) +
    Real.sin (radiansDeg lat1) * Real.sin (radiansDeg lat2)

/-- Modelled from the spec: the great-circle distance (metres, Earth radius
6371000) computed by the `nearby` station query. -/
noncomputable def haversineDistance (lat1 lon1 lat2 lon2 : ℝ) : ℝ :=
  6371000 * acosClamped (haversineArg lat1 lon1 lat2 lon2)

/-! ## Merge / squash engine

Modelled from the spec: `meteostat/utils/data.py` (`squash_df`) is absent
from the source snapshot (only `tests/unit/test_data.py` and the merge
integration test are present).  Per spec §4.7, squash collapses the rows
that share a `(station, time)` key but differ in source: the candidate rows
are sorted by descending provider priority
(`provider_service.get_source_priority`), each parameter cell is filled
from the first row whose value is present, and a companion `<p>_source`
column records the provider that supplied the value. -/

/-- One pre-squash frame row: `(station, time, source)` key plus the
parameter cells. -/
structure SourceRow where
  station : String
  time : ℕ
  source : String
  cells : String → Option ℚ

/-- The `(station, time)` key of a row. -/
def rowKey (r : SourceRow) : String × ℕ := (r.station, r.time)

/-- The distinct `(station, time)` keys of a frame, in order of first
appearance. -/
def squashKeys (df : List SourceRow) : List (String × ℕ) :=
  (df.map rowKey).dedup

/-- All rows of the frame carrying the given key. -/
def groupRows (df : List SourceRow) (k : String × ℕ) : List SourceRow :=
  df.filter fun r => rowKey r = k

/-- Descending provider priority, the sort order used by squash. -/
def prioDescRel (prio : String → ℤ) (a b : SourceRow) : Prop :=
  prio b.source ≤ prio a.source

instance (prio : String → ℤ) : DecidableRel (prioDescRel prio) := fun a b =>
  inferInstanceAs (Decidable (prio b.source ≤ prio a.source))

instance (prio : String → ℤ) : IsTotal SourceRow (prioDescRel prio) :=
  ⟨fun a b => (le_total (prio a.source) (prio b.source)).symm⟩

instance (prio : String → ℤ) : IsTrans SourceRow (prioDescRel prio) :=
  ⟨fun _ _ _ hab hbc => le_trans hbc hab⟩

/-- One post-squash row: parameter cells plus the per-parameter
`<p>_source` attribution. -/
structure SquashedRow where
  station : String
  time : ℕ
  cells : String → Option ℚ
  src : String → Option String

/-- Squash one `(station, time)` group: sort its rows by descending
priority, fill each cell from the first row whose value is present, and
record that row's source. -/
def squashGroup (prio : String → ℤ) (df : List SourceRow) (k : String × ℕ) :
    SquashedRow :=
  let g := (groupRows df k).insertionSort (prioDescRel prio)
  { station := k.1
    time := k.2
    cells := fun c => (g.find? fun r => (r.cells c).isSome).bind fun r => r.cells c
    src := fun c => (g.find? fun r => (r.cells c).isSome).map fun r => r.source }

/-- Modelled from the spec: `squash_df` — one output row per distinct
`(station, time)` key, built by `squashGroup`. -/
def squash_df (prio : String → ℤ) (df : List SourceRow) : List SquashedRow :=
  (squashKeys df).map (squashGroup prio df)

/-- Provider priorities for the squash witness: `dwd` outranks `meteostat`. -/
def sampleSquashPrio (s : String) : ℤ :=
  if s = "dwd" then 2 else if s = "meteostat" then 1 else 0

/-- Squash witness row from the lower-priority provider, with both cells. -/
def sampleSquashRow1 : SourceRow :=
  ⟨"10637", 0, "meteostat",
    fun c => if c = "temp" then some 6 else if c = "prcp" then some 1 else none⟩

/-- Squash witness row from the higher-priority provider, `prcp` missing. -/
def sampleSquashRow2 : SourceRow :=
  ⟨"10637", 0, "dwd", fun c => if c = "temp" then some 7 else none⟩

/-- A two-source frame for the same `(station, time)`. -/
def sampleSquashDf : List SourceRow := [sampleSquashRow1, sampleSquashRow2]

/-! ## Theorems -/

theorem pymod360_eq_self {v : ℚ} (h0 : 0 ≤ v) (h1 : v < 360) : pymod360 v = v := by
  unfold pymod360
  have hfloor : ⌊v / 360⌋ = 0 := by
    apply Int.floor_eq_zero_iff.mpr
    constructor
    · positivity
    · rw [div_lt_one (by norm_num)]
      simpa using h1
  rw [hfloor]
  ring

theorem pymod360_add_360 (v : ℚ) : pymod360 (v + 360) = pymod360 v := by
  unfold pymod360
  have : (v + 360) / 360 = v / 360 + 1 := by ring
  rw [this, Int.floor_add_one]
  push_cast
  ring

/-- C10: on every degree value `d` with `0 ≤ d ≤ 360` the two parallel
`to_direction` implementations (`meteostat/units.py` and
`meteostat/utils/conversions.py`) agree, including on the gap values where
both return `None`; only the `conversions.py` variant additionally maps a
missing input to `None` and normalizes out-of-range inputs modulo 360. -/
theorem toDirection_parallel_implementations_agree :
    (∀ d : ℚ, 0 ≤ d → d ≤ 360 → unitsToDirection d = conversionsToDirection (some d))
    ∧ conversionsToDirection none = none
    ∧ (∀ d : ℚ, conversionsToDirection (some (d + 360)) = conversionsToDirection (some d)) := by
  refine ⟨?_, rfl, ?_⟩
  · intro d h0 h1
    rcases lt_or_eq_of_le h1 with hlt | heq
    · simp only [unitsToDirection, conversionsToDirection, pymod360_eq_self h0 hlt]
    · subst heq
      have h360 : pymod360 (360 : ℚ) = 0 := by
        unfold pymod360
        norm_num
      simp only [unitsToDirection, conversionsToDirection, h360]
      norm_num
  · intro d
    simp only [conversionsToDirection, pymod360_add_360]

/-- Witness for C10 at concrete inputs: `d = 90` is in range and both
implementations return `E`. -/
theorem toDirection_parallel_implementations_agree_witness :
    (0 ≤ (90 : ℚ) ∧ (90 : ℚ) ≤ 360)
    ∧ unitsToDirection 90 = conversionsToDirection (some 90)
    ∧ unitsToDirection 90 = some ("E") :=
  ⟨by norm_num,
   toDirection_parallel_implementations_agree.1 90 (by norm_num) (by norm_num),
   by decide⟩

/-- C9: processing one prefixed environment variable, with `key` the
stripped and lowercased property name: a JSON parse failure or a validation
failure leaves every property at its default and logs an error; an unknown
property is skipped with a debug log and no assignment; a value that parses
and validates replaces the default for exactly that property.  (`loadEnv` is
total, so initialization never aborts.) -/
theorem load_env_invalid_override_keeps_default {V P : Type}
    (ctx : EnvContext V P) (pfxStr name value : String) (cfg : String → V)
    (hpfx : pyStartsWith name (envVarPfx pfxStr) = true) :
    let key := pyLower (pyReplace name (envVarPfx pfxStr) (""))
    ((parseEnvValue ctx key value = .skipParse ∨
        parseEnvValue ctx key value = .skipValidate) →
      loadEnv ctx pfxStr [(name, value)] cfg = (cfg, [(.error, key)]))
    ∧ (parseEnvValue ctx key value = .skipUnknown →
      loadEnv ctx pfxStr [(name, value)] cfg = (cfg, [(.debug, key)]))
    ∧ (∀ v, parseEnvValue ctx key value = .value v →
      (loadEnv ctx pfxStr [(name, value)] cfg).1 key = v
        ∧ (∀ k, k ≠ key → (loadEnv ctx pfxStr [(name, value)] cfg).1 k = cfg k)
        ∧ (loadEnv ctx pfxStr [(name, value)] cfg).2 = []) := by
  intro key
  refine ⟨?_, ?_, ?_⟩
  · rintro (h | h) <;> simp [loadEnv, hpfx, h]
  · intro h
    simp [loadEnv, hpfx, h]
  · intro v h
    refine ⟨?_, ?_, ?_⟩
    · simp [loadEnv, hpfx, h]
    · intro k hk
      simp [loadEnv, hpfx, h, hk]
    · simp [loadEnv, hpfx, h]

/-- Witness for C9: a concrete context over integer values where
`MS_CACHE_TTL=xx` fails to parse, leaving the default untouched with an
error log, while `MS_CACHE_TTL=30` parses, validates and replaces the
default. -/
theorem load_env_invalid_override_keeps_default_witness :
    let ctx : EnvContext Int Unit :=
      { extractPropertyType := fun k => if k = "cache_ttl" then some (some ()) else none
        isStrType := fun _ => false
        jsonLoads := fun s => if s = "30" then some 30 else none
        validateParsedValue := fun v _ => if 0 ≤ v then some v else none
        ofString := fun _ => 0 }
    let cfg : String → Int := fun _ => 2592000
    pyStartsWith ("MS_CACHE_TTL") (envVarPfx ("MS")) = true
    ∧ parseEnvValue ctx ("cache_ttl") ("xx") = .skipParse
    ∧ loadEnv ctx ("MS") [("MS_CACHE_TTL", "xx")] cfg = (cfg, [(.error, "cache_ttl")])
    ∧ parseEnvValue ctx ("cache_ttl") ("30") = .value 30
    ∧ (loadEnv ctx ("MS") [("MS_CACHE_TTL", "30")] cfg).1 ("cache_ttl") = 30 := by
  intro ctx cfg
  have hpfx : pyStartsWith ("MS_CACHE_TTL") (envVarPfx ("MS")) = true := by decide
  have hkey : pyLower (pyReplace ("MS_CACHE_TTL") (envVarPfx ("MS")) ("")) = "cache_ttl" := by
    decide
  have hparse : parseEnvValue ctx ("cache_ttl") ("xx") = .skipParse := by decide
  have hok : parseEnvValue ctx ("cache_ttl") ("30") = .value 30 := by decide
  refine ⟨hpfx, hparse, ?_, hok, ?_⟩
  · have h := (load_env_invalid_override_keeps_default ctx ("MS") ("MS_CACHE_TTL") ("xx") cfg
      hpfx).1
    rw [hkey] at h
    exact h (Or.inl hparse)
  · have h := ((load_env_invalid_override_keeps_default ctx ("MS") ("MS_CACHE_TTL") ("30") cfg
      hpfx).2.2 30)
    rw [hkey] at h
    exact (h hok).1

/-- C2: with the validator enabled, the daily request spanning exactly 30
years (1990-01-01 to 2020-12-31, the boundary case of the tests) is
accepted and the request one day longer (end 2021-01-01) is rejected; any
request for more than 10 stations is rejected; disabling
`block_large_requests` disables both gates; every rejection message
mentions the disable flag. -/
theorem validator_thirty_year_and_station_gates (now : PyDateTime) :
    validateRequest true now
      ⟨.daily, ["10637"], some (mkDate 1990 1 1), some (mkDate 2020 12 31)⟩ = .ok ()
    ∧ validateRequest true now
      ⟨.daily, ["10637"], some (mkDate 1990 1 1), some (mkDate 2021 1 1)⟩ =
        .error .dailyRangeTooLong
    ∧ (∀ req : Request, 10 < req.stations.length →
        validateRequest true now req = .error .tooManyStations)
    ∧ (∀ req : Request, validateRequest false now req = .ok ())
    ∧ (∀ e : RequestError, ∃ pre post : String,
        e.message = pre ++ "config.block_large_requests = False" ++ post) := by
  refine ⟨rfl, rfl, ?_, ?_, ?_⟩
  · intro req h
    simp [validateRequest, h]
  · intro req
    simp [validateRequest]
  · intro e
    cases e
    · exact ⟨"Requests with more than 10 stations are blocked by default. To disable this behavior, set `", "`.", by decide⟩
    · exact ⟨"Hourly and daily requests without a start date are blocked by default. To disable this behavior, set `", "`.", by decide⟩
    · exact ⟨"Hourly requests longer than 3 years are blocked by default. To disable this behavior, set `", "`.", by decide⟩
    · exact ⟨"Daily requests longer than 30 years are blocked by default. To disable this behavior, set `", "`.", by decide⟩

/-- Witness for C2 at a concrete `now`. -/
theorem validator_thirty_year_and_station_gates_witness :
    validateRequest true (mkDate 2026 10 12)
      ⟨.daily, ["10637"], some (mkDate 1990 1 1), some (mkDate 2020 12 31)⟩ = .ok ()
    ∧ validateRequest true (mkDate 2026 10 12)
      ⟨.daily, ["A", "B", "C", "D", "E", "F", "G", "H", "I", "J", "K"],
        some (mkDate 2024 1 1), some (mkDate 2024 12 31)⟩ = .error .tooManyStations := by
  have h := validator_thirty_year_and_station_gates (mkDate 2026 10 12)
  exact ⟨h.1, h.2.2.1 _ (by decide)⟩

/-- C3: the length gate is granularity-specific.  Every hourly request whose
calendar-year span exceeds 3 is rejected (with the hourly length error when
the station count is in bounds), while monthly and normals requests are
never rejected for their length: the only error they can produce is the
station-count error. -/
theorem validator_length_gate_granularity_specific (now : PyDateTime) :
    (∀ (req : Request) (s : PyDateTime), req.granularity = .hourly →
      req.start = some s → 3 < ((req.endTime.getD now).year - s.year) →
      validateRequest true now req ≠ .ok ())
    ∧ (∀ (req : Request) (s : PyDateTime), req.granularity = .hourly →
      req.stations.length ≤ 10 →
      req.start = some s → 3 < ((req.endTime.getD now).year - s.year) →
      validateRequest true now req = .error .hourlyRangeTooLong)
    ∧ (∀ (req : Request) (err : RequestError),
      (req.granularity = .monthly ∨ req.granularity = .normals) →
      validateRequest true now req = .error err → err = .tooManyStations) := by
  refine ⟨?_, ?_, ?_⟩
  · intro req s hg hs hlen
    by_cases hn : 10 < req.stations.length
    · simp [validateRequest, hn]
    · simp [validateRequest, hn, hg, hs, hlen]
  · intro req s hg hn hs hlen
    simp [validateRequest, Nat.not_lt.mpr hn, hg, hs, hlen]
  · intro req err hg herr
    rcases hg with hg | hg <;>
      · by_cases hn : 10 < req.stations.length
        · simp [validateRequest, hn] at herr
          exact herr.symm
        · simp [validateRequest, hn, hg] at herr

/-- Witness for C3: a 6-year hourly request is rejected with the hourly
length error; a monthly request over the same range is accepted. -/
theorem validator_length_gate_granularity_specific_witness :
    validateRequest true (mkDate 2026 10 12)
      ⟨.hourly, ["10637"], some (mkDate 2015 1 1), some (mkDate 2021 12 31)⟩ =
        .error .hourlyRangeTooLong
    ∧ validateRequest true (mkDate 2026 10 12)
      ⟨.monthly, ["10637"], some (mkDate 1990 1 1), some (mkDate 2021 12 31)⟩ = .ok () := by
  have h := validator_length_gate_granularity_specific (mkDate 2026 10 12)
  refine ⟨h.2.1 _ (mkDate 2015 1 1) rfl (by decide) rfl (by decide), rfl⟩

/-- C4: every hourly or daily request without a start date is rejected
(with the missing-start error when the station count is in bounds), while a
request with an absent end date is validated exactly as if its end date
were `now`: absence of the end date is itself never a rejection reason. -/
theorem validator_missing_start_rejected_missing_end_normalized
    (now : PyDateTime) :
    (∀ req : Request,
      (req.granularity = .hourly ∨ req.granularity = .daily) →
      req.start = none → validateRequest true now req ≠ .ok ())
    ∧ (∀ req : Request,
      (req.granularity = .hourly ∨ req.granularity = .daily) →
      req.stations.length ≤ 10 →
      req.start = none → validateRequest true now req = .error .missingStart)
    ∧ (∀ (blockLargeRequests : Bool) (req : Request), req.endTime = none →
      validateRequest blockLargeRequests now req =
        validateRequest blockLargeRequests now { req with endTime := some now }) := by
  refine ⟨?_, ?_, ?_⟩
  · intro req hg hs
    by_cases hn : 10 < req.stations.length
    · simp [validateRequest, hn]
    · rcases hg with hg | hg <;> simp [validateRequest, hn, hg, hs]
  · intro req hg hn hs
    rcases hg with hg | hg <;> simp [validateRequest, Nat.not_lt.mpr hn, hg, hs]
  · intro block req he
    cases block
    · rfl
    · simp only [validateRequest, he]
      rfl

/-- Witness for C4: a daily request with no start is rejected with the
missing-start error; a daily request with no end is validated like the same
request ending `now`, and is accepted for a recent start. -/
theorem validator_missing_start_rejected_missing_end_normalized_witness :
    validateRequest true (mkDate 2026 10 12)
      ⟨.daily, ["10637"], none, some (mkDate 2024 12 31)⟩ = .error .missingStart
    ∧ validateRequest true (mkDate 2026 10 12)
      ⟨.daily, ["10637"], some (mkDate 2021 1 1), none⟩ =
        validateRequest true (mkDate 2026 10 12)
          ⟨.daily, ["10637"], some (mkDate 2021 1 1), some (mkDate 2026 10 12)⟩
    ∧ validateRequest true (mkDate 2026 10 12)
      ⟨.daily, ["10637"], some (mkDate 2021 1 1), none⟩ = .ok () := by
  have h := validator_missing_start_rejected_missing_end_normalized (mkDate 2026 10 12)
  refine ⟨h.2.1 _ (Or.inr rfl) (by decide) rfl, ?_, rfl⟩
  exact h.2.2 true ⟨.daily, ["10637"], some (mkDate 2021 1 1), none⟩ rfl

theorem length_le_of_nodup_keys (L : List (String × ℕ)) (S : List String) (s e : ℕ)
    (hnd : L.Nodup) (hmem : ∀ x ∈ L, x.1 ∈ S ∧ s ≤ x.2 ∧ x.2 ≤ e) :
    L.length ≤ S.length * (e + 1 - s) := by
  classical
  have hsub : L.toFinset ⊆ S.toFinset ×ˢ Finset.Icc s e := by
    intro x hx
    rw [List.mem_toFinset] at hx
    obtain ⟨h1, h2, h3⟩ := hmem x hx
    exact Finset.mem_product.mpr ⟨List.mem_toFinset.mpr h1, Finset.mem_Icc.mpr ⟨h2, h3⟩⟩
  calc L.length = L.toFinset.card := (List.toFinset_card_of_nodup hnd).symm
    _ ≤ (S.toFinset ×ˢ Finset.Icc s e).card := Finset.card_le_card hsub
    _ = S.toFinset.card * (Finset.Icc s e).card := Finset.card_product _ _
    _ ≤ S.length * (e + 1 - s) := by
        apply Nat.mul_le_mul
        · exact S.toFinset_card_le
        · rw [Nat.card_Icc]

/-- In a well-formed frame (unique `(station, time)` keys, stations from the
stations table, times inside the declared window) the row count is bounded
by `stations × expected_rows`. -/
theorem rows_length_le (ts : TSFacade) (s e : ℕ)
    (hstart : ts.start = some s) (hend : ts.endTime = some e)
    (hkeys : (ts.rows.map fun r => (r.station, r.time)).Nodup)
    (hst : ∀ r ∈ ts.rows, r.station ∈ ts.stations)
    (htime : ∀ r ∈ ts.rows, ∀ s' e' : ℕ, ts.start = some s' → ts.endTime = some e' →
      s' ≤ r.time ∧ r.time ≤ e') :
    ts.rows.length ≤ ts.stations.length * (e + 1 - s) := by
  have h := length_le_of_nodup_keys (ts.rows.map fun r => (r.station, r.time))
    ts.stations s e hkeys ?_
  · simpa using h
  · intro x hx
    obtain ⟨r, hr, rfl⟩ := List.mem_map.mp hx
    exact ⟨hst r hr, (htime r hr s e hstart hend).1, (htime r hr s e hstart hend).2⟩

theorem countCol_le_rows (ts : TSFacade) (c : String) :
    countCol ts c ≤ ts.rows.length :=
  List.countP_le_length _

theorem countAll_le_cols_mul_rows (ts : TSFacade) :
    countAll ts ≤ ts.cols.length * ts.rows.length := by
  unfold countAll
  have h := List.sum_le_card_nsmul (ts.cols.map (countCol ts)) ts.rows.length ?_
  · simpa [smul_eq_mul] using h
  · intro x hx
    obtain ⟨c, _, rfl⟩ := List.mem_map.mp hx
    exact countCol_le_rows ts c

theorem countCol_of_empty (ts : TSFacade) (c : String) (h : ts.rows = []) :
    countCol ts c = 0 := by
  simp [countCol, h]

theorem countAll_of_empty (ts : TSFacade) (h : ts.rows = []) :
    countAll ts = 0 := by
  apply List.sum_eq_zero
  intro x hx
  obtain ⟨c, _, rfl⟩ := List.mem_map.mp hx
  exact countCol_of_empty ts c h

/-- C5: for a well-formed `TimeSeries` (unique `(station, time)` keys,
stations drawn from a non-empty stations table, at least one parameter
column, frame rows inside the declared window) `completeness(p)` is `None`
exactly when a declared bound is unset, otherwise a rational in `[0, 1]`
that is `0` exactly when the selected column — or, with no parameter, the
entire frame — has zero non-null entries. -/
theorem completeness_in_unit_interval_none_and_zero_cases
    (ts : TSFacade) (p : Option String)
    (hkeys : (ts.rows.map fun r => (r.station, r.time)).Nodup)
    (hst : ∀ r ∈ ts.rows, r.station ∈ ts.stations)
    (htime : ∀ r ∈ ts.rows, ∀ s' e' : ℕ, ts.start = some s' → ts.endTime = some e' →
      s' ≤ r.time ∧ r.time ≤ e')
    (hrange : ∀ s' e' : ℕ, ts.start = some s' → ts.endTime = some e' → s' ≤ e')
    (hstations : ts.stations ≠ [])
    (hcols : ts.cols ≠ []) :
    (completeness ts p = none ↔ (ts.start = none ∨ ts.endTime = none))
    ∧ (∀ q : ℚ, completeness ts p = some q → 0 ≤ q ∧ q ≤ 1)
    ∧ (completeness ts p = some 0 ↔
        (ts.start ≠ none ∧ ts.endTime ≠ none ∧ tsCount ts p = 0)) := by
  rcases hs : ts.start with _ | s <;> rcases he : ts.endTime with _ | e
  · exact ⟨by simp [completeness, hs, he], by simp [completeness, hs, he],
      by simp [completeness, hs, he]⟩
  · exact ⟨by simp [completeness, hs, he], by simp [completeness, hs, he],
      by simp [completeness, hs, he]⟩
  · exact ⟨by simp [completeness, hs, he], by simp [completeness, hs, he],
      by simp [completeness, hs, he]⟩
  have hse : s ≤ e := hrange s e hs he
  have hS : 0 < ts.stations.length := List.length_pos.mpr hstations
  have hC : 0 < ts.cols.length := List.length_pos.mpr hcols
  have hTgt : targetLength ts = e + 1 - s := by simp [targetLength, hs, he]
  have hT : 0 < targetLength ts := by omega
  have hrows := rows_length_le ts s e hs he hkeys hst htime
  by_cases hemp : ts.rows.isEmpty
  · have hrows0 : ts.rows = [] := List.isEmpty_iff.mp hemp
    have hcount : tsCount ts p = 0 := by
      cases p with
      | none => exact countAll_of_empty ts hrows0
      | some c => exact countCol_of_empty ts c hrows0
    refine ⟨by simp [completeness, hs, he, hemp], ?_, ?_⟩
    · intro q hq
      simp only [completeness, hs, he, hemp, if_true, Option.some.injEq] at hq
      subst hq
      norm_num
    · simp [completeness, hs, he, hemp, hcount]
  · cases p with
    | some c =>
      have hDpos : (0 : ℚ) < ((targetLength ts * ts.stations.length : ℕ) : ℚ) := by
        have : 0 < targetLength ts * ts.stations.length := Nat.mul_pos hT hS
        exact_mod_cast this
      have hle : countCol ts c ≤ targetLength ts * ts.stations.length := by
        calc countCol ts c ≤ ts.rows.length := countCol_le_rows ts c
          _ ≤ ts.stations.length * (e + 1 - s) := hrows
          _ = targetLength ts * ts.stations.length := by rw [hTgt]; ring
      have hcompl : completeness ts (some c) =
          some ((countCol ts c : ℚ) / ((targetLength ts * ts.stations.length : ℕ) : ℚ)) := by
        simp [completeness, hs, he, hemp]
      refine ⟨by rw [hcompl]; simp [hs, he], ?_, ?_⟩
      · intro q hq
        rw [hcompl] at hq
        obtain rfl := Option.some.inj hq
        constructor
        · positivity
        · rw [div_le_one hDpos]
          exact_mod_cast hle
      · rw [hcompl]
        simp only [Option.some.injEq, tsCount]
        rw [div_eq_zero_iff]
        constructor
        · rintro (h0 | h0)
          · exact ⟨by simp [hs], by simp [he], by exact_mod_cast h0⟩
          · exact absurd h0 (ne_of_gt hDpos)
        · rintro ⟨-, -, h0⟩
          exact Or.inl (by exact_mod_cast h0)
    | none =>
      have hDpos : (0 : ℚ) <
          ((targetLength ts * ts.stations.length * ts.cols.length : ℕ) : ℚ) := by
        have : 0 < targetLength ts * ts.stations.length * ts.cols.length :=
          Nat.mul_pos (Nat.mul_pos hT hS) hC
        exact_mod_cast this
      have hle : countAll ts ≤ targetLength ts * ts.stations.length * ts.cols.length := by
        calc countAll ts ≤ ts.cols.length * ts.rows.length := countAll_le_cols_mul_rows ts
          _ ≤ ts.cols.length * (ts.stations.length * (e + 1 - s)) :=
              Nat.mul_le_mul_left _ hrows
          _ = targetLength ts * ts.stations.length * ts.cols.length := by rw [hTgt]; ring
      have hcompl : completeness ts none =
          some ((countAll ts : ℚ) /
            ((targetLength ts * ts.stations.length * ts.cols.length : ℕ) : ℚ)) := by
        simp [completeness, hs, he, hemp]
      refine ⟨by rw [hcompl]; simp [hs, he], ?_, ?_⟩
      · intro q hq
        rw [hcompl] at hq
        obtain rfl := Option.some.inj hq
        constructor
        · positivity
        · rw [div_le_one hDpos]
          exact_mod_cast hle
      · rw [hcompl]
        simp only [Option.some.injEq, tsCount]
        rw [div_eq_zero_iff]
        constructor
        · rintro (h0 | h0)
          · exact ⟨by simp [hs], by simp [he], by exact_mod_cast h0⟩
          · exact absurd h0 (ne_of_gt hDpos)
        · rintro ⟨-, -, h0⟩
          exact Or.inl (by exact_mod_cast h0)

/-- Witness for C5: the sample series is fully populated, so its
completeness is exactly `1`, which lies in `[0, 1]` and is not `0`. -/
theorem completeness_in_unit_interval_witness :
    completeness sampleTs (some ("temp")) = some 1
    ∧ (0 ≤ (1 : ℚ) ∧ (1 : ℚ) ≤ 1)
    ∧ ¬completeness sampleTs (some ("temp")) = some 0 := by
  have hkeys : (sampleTs.rows.map fun r => (r.station, r.time)).Nodup := by decide
  have hst : ∀ r ∈ sampleTs.rows, r.station ∈ sampleTs.stations := by
    intro r hr
    simp only [sampleTs, List.mem_cons, List.not_mem_nil, or_false] at hr
    rcases hr with rfl | rfl | rfl | rfl | rfl <;> decide
  have htime : ∀ r ∈ sampleTs.rows, ∀ s' e' : ℕ,
      sampleTs.start = some s' → sampleTs.endTime = some e' →
      s' ≤ r.time ∧ r.time ≤ e' := by
    intro r hr s' e' hs' he'
    have hs0 : sampleTs.start = some 0 := rfl
    have he0 : sampleTs.endTime = some 4 := rfl
    rw [hs0] at hs'
    rw [he0] at he'
    obtain rfl := Option.some.inj hs'
    obtain rfl := Option.some.inj he'
    simp only [sampleTs, List.mem_cons, List.not_mem_nil, or_false] at hr
    rcases hr with rfl | rfl | rfl | rfl | rfl <;> exact ⟨by decide, by decide⟩
  have hrange : ∀ s' e' : ℕ, sampleTs.start = some s' → sampleTs.endTime = some e' →
      s' ≤ e' := by
    intro s' e' hs' he'
    have hs0 : sampleTs.start = some 0 := rfl
    have he0 : sampleTs.endTime = some 4 := rfl
    rw [hs0] at hs'
    rw [he0] at he'
    obtain rfl := Option.some.inj hs'
    obtain rfl := Option.some.inj he'
    decide
  have main := completeness_in_unit_interval_none_and_zero_cases sampleTs (some ("temp"))
    hkeys hst htime hrange (by decide) (by decide)
  have hcc : countCol sampleTs ("temp") = 5 := by decide
  have htl : targetLength sampleTs = 5 := by decide
  have hsl : sampleTs.stations.length = 1 := by decide
  have hc1 : completeness sampleTs (some ("temp")) = some 1 := by
    have h : completeness sampleTs (some ("temp")) =
        some ((countCol sampleTs ("temp") : ℚ) /
          ((targetLength sampleTs * sampleTs.stations.length : ℕ) : ℚ)) := rfl
    rw [h, hcc, htl, hsl]
    norm_num
  refine ⟨hc1, main.2.1 1 hc1, ?_⟩
  intro h0
  have hcount := (main.2.2.mp h0).2.2
  exact absurd hcount (by decide)

/-- C6: the lapse-rate correction adds `(lapse_rate/1000)·(station_elev -
point_elev)` to every present temperature cell, keeps NaN temperatures NaN,
leaves non-temperature columns and elevations unchanged, and the pipeline
applies it when and only when the point's elevation is not `None` — in
particular a sea-level point (`some 0`) does trigger it. -/
theorem lapse_rate_formula_and_application_condition :
    (∀ (tempCols : List String) (e lr : ℚ) (df : List StationsRow) (i : ℕ)
        (r : StationsRow), df[i]? = some r →
      ∃ r', (apply_lapse_rate tempCols e lr df)[i]? = some r'
        ∧ r'.elevation = r.elevation
        ∧ (∀ c ∈ tempCols,
            r'.cells c = (r.cells c).map fun v => v + lr / 1000 * (r.elevation - e))
        ∧ (∀ c ∈ tempCols, r.cells c = none → r'.cells c = none)
        ∧ (∀ c, c ∉ tempCols → r'.cells c = r.cells c))
    ∧ (∀ (tempCols : List String) (lr : Option ℚ) (df : List StationsRow),
        lapseRateStep tempCols none lr df = df)
    ∧ (∀ (tempCols : List String) (e lr : ℚ) (df : List StationsRow),
        lapseRateStep tempCols (some e) (some lr) df = apply_lapse_rate tempCols e lr df) := by
  refine ⟨?_, ?_, ?_⟩
  · intro tempCols e lr df i r hr
    refine ⟨{ elevation := r.elevation
              cells := fun c =>
                if c ∈ tempCols then
                  (r.cells c).map fun v => v + lr / 1000 * (r.elevation - e)
                else r.cells c }, ?_, rfl, ?_, ?_, ?_⟩
    · rw [apply_lapse_rate, List.getElem?_map, hr]
      rfl
    · intro c hc
      simp [hc]
    · intro c hc hnone
      simp [hc, hnone]
    · intro c hc
      simp [hc]
  · intro tempCols lr df
    cases lr <;> rfl
  · intro tempCols e lr df
    rfl

/-- Witness for C6: a station at 100 m with `temp = 20` corrected to a
sea-level point (`elevation = some 0`, lapse rate 6.5) yields
`temp = 20.65`, while a missing temperature stays missing. -/
theorem lapse_rate_formula_and_application_condition_witness :
    ([⟨100, fun c => if c = "temp" then some 20 else none⟩,
      ⟨100, fun _ => none⟩] : List StationsRow)[0]? =
        some ⟨100, fun c => if c = "temp" then some 20 else none⟩
    ∧ ∃ r', (lapseRateStep ["temp"] (some 0) (some (13 / 2))
        [⟨100, fun c => if c = "temp" then some 20 else none⟩,
         ⟨100, fun _ => none⟩])[0]? = some r'
      ∧ r'.cells ("temp") = some (413 / 20) := by
  have h := lapse_rate_formula_and_application_condition
  obtain ⟨r', hr', _, hform, _, _⟩ := h.1 ["temp"] 0 (13 / 2)
    [⟨100, fun c => if c = "temp" then some 20 else none⟩, ⟨100, fun _ => none⟩] 0
    ⟨100, fun c => if c = "temp" then some 20 else none⟩ rfl
  refine ⟨rfl, r', ?_, ?_⟩
  · rw [h.2.2 ["temp"] 0 (13 / 2) _]
    exact hr'
  · rw [hform ("temp") (by simp)]
    norm_num

/-- C7: the degenerate IDW cases produce NaN, never zero — if every
station's value is NaN, or the sum of the valid weights is zero (which
covers `1/distance^power` underflowing to zero for all valid stations), the
interpolated cell is `none`, in particular not `0`. -/
theorem idw_degenerate_cases_nan_never_zero (rows : List (ℚ × Option ℚ)) :
    ((∀ r ∈ rows, r.2 = none) → idwCell rows = none)
    ∧ (((validPairs rows).map fun p => p.1).sum = 0 → idwCell rows = none)
    ∧ (((∀ r ∈ rows, r.2 = none) ∨ ((validPairs rows).map fun p => p.1).sum = 0) →
        idwCell rows ≠ some 0) := by
  have hall : (∀ r ∈ rows, r.2 = none) → validPairs rows = [] := by
    intro h
    rw [validPairs, List.filterMap_eq_nil_iff]
    intro r hr
    rw [h r hr]
    rfl
  have h1 : (∀ r ∈ rows, r.2 = none) → idwCell rows = none := by
    intro h
    rw [idwCell]
    simp [hall h]
  have h2 : ((validPairs rows).map fun p => p.1).sum = 0 → idwCell rows = none := by
    intro h
    rw [idwCell]
    by_cases hemp : (validPairs rows).isEmpty
    · simp [hemp]
    · simp [hemp, h]
  refine ⟨h1, h2, ?_⟩
  rintro (h | h)
  · simp [h1 h]
  · simp [h2 h]

/-- Witness for C7: an all-NaN column gives NaN, and a column whose two
valid stations both carry weight `0` (underflowed `1/d^p`) gives NaN. -/
theorem idw_degenerate_cases_nan_never_zero_witness :
    (∀ r ∈ ([(1, none), (2, none)] : List (ℚ × Option ℚ)), r.2 = none)
    ∧ idwCell [(1, none), (2, none)] = none
    ∧ ((validPairs [((0 : ℚ), some (20 : ℚ)), (0, some 25)]).map fun p => p.1).sum = 0
    ∧ idwCell [((0 : ℚ), some (20 : ℚ)), (0, some 25)] = none := by
  have hsum :
      ((validPairs [((0 : ℚ), some (20 : ℚ)), (0, some 25)]).map fun p => p.1).sum = 0 := by
    show ([0, 0] : List ℚ).sum = 0
    simp
  refine ⟨by decide, ?_, hsum, ?_⟩
  · exact (idw_degenerate_cases_nan_never_zero _).1 (by decide)
  · exact (idw_degenerate_cases_nan_never_zero _).2.1 hsum

theorem haversineArg_self (lat lon : ℝ) : haversineArg lat lon lat lon = 1 := by
  unfold haversineArg
  rw [sub_self, Real.cos_zero]
  linear_combination Real.sin_sq_add_cos_sq (radiansDeg lat)

theorem haversineArg_antipodal (lat lon : ℝ) :
    haversineArg lat lon (-lat) (lon + 180) = -1 := by
  unfold haversineArg
  have hlon : radiansDeg (lon + 180) - radiansDeg lon = Real.pi := by
    unfold radiansDeg
    ring
  have hlat : radiansDeg (-lat) = -(radiansDeg lat) := by
    unfold radiansDeg
    ring
  rw [hlon, hlat, Real.cos_pi, Real.cos_neg, Real.sin_neg]
  linear_combination (-1 : ℝ) * Real.sin_sq_add_cos_sq (radiansDeg lat)

/-- C8: the `nearby` distance computation never leaves the domain of
`acos` — the clamped argument always lies in `[-1, 1]` — and consequently a
query point coinciding with a station gets distance `0`, while an antipodal
point/station pair gets the finite distance `6371000·π` (about half the
Earth's circumference, in particular more than 19000 km) instead of a math
domain error. -/
theorem nearby_acos_clamped_no_domain_error :
    (∀ x : ℝ, -1 ≤ clampAcosArg x ∧ clampAcosArg x ≤ 1)
    ∧ (∀ lat lon : ℝ, haversineDistance lat lon lat lon = 0)
    ∧ (∀ lat lon : ℝ,
        haversineDistance lat lon (-lat) (lon + 180) = 6371000 * Real.pi)
    ∧ 19000000 < 6371000 * Real.pi := by
  refine ⟨?_, ?_, ?_, ?_⟩
  · intro x
    exact ⟨le_max_left _ _, max_le (by norm_num) (min_le_left _ _)⟩
  · intro lat lon
    unfold haversineDistance acosClamped clampAcosArg
    rw [haversineArg_self, min_self, max_eq_right (by norm_num : (-1 : ℝ) ≤ 1),
      Real.arccos_one, mul_zero]
  · intro lat lon
    unfold haversineDistance acosClamped clampAcosArg
    rw [haversineArg_antipodal, min_eq_right (by norm_num : (-1 : ℝ) ≤ 1), max_self,
      Real.arccos_neg_one]
  · nlinarith [Real.pi_gt_d6]

/-- In a list sorted by descending priority, `find?` of "has a value"
returns the row with the strictly highest priority among those that have a
value. -/
theorem find?_first_some (prio : String → ℤ) (c : String) (r : SourceRow) :
    ∀ l : List SourceRow, l.Sorted (prioDescRel prio) → r ∈ l →
      (r.cells c).isSome →
      (∀ r' ∈ l, (r'.cells c).isSome = true → r' = r ∨ prio r'.source < prio r.source) →
      l.find? (fun x => (x.cells c).isSome) = some r := by
  intro l
  induction l with
  | nil => intro _ hr; cases hr
  | cons a tl ih =>
    intro hsort hr hsome hmax
    rw [List.sorted_cons] at hsort
    by_cases hP : (a.cells c).isSome
    · rw [List.find?_cons]
      simp only [hP]
      rcases List.mem_cons.mp hr with rfl | hrtl
      · rfl
      · rcases hmax a (List.mem_cons_self a tl) hP with rfl | hlt
        · rfl
        · exact absurd (hsort.1 r hrtl) (not_le.mpr hlt)
    · rw [List.find?_cons]
      rw [Bool.not_eq_true] at hP
      simp only [hP]
      rcases List.mem_cons.mp hr with rfl | hrtl
      · rw [hP] at hsome
        cases hsome
      · exact ih hsort.2 hrtl hsome fun r' hr' h' =>
          hmax r' (List.mem_cons_of_mem a hr') h'

/-- C1: squash emits at most one row per `(station, time)` — its key list
is exactly the deduplicated key list of the input, hence has no
duplicates — and whenever `r` is the row with the strictly highest
priority among the rows of its `(station, time)` group that have a value in
column `c`, the output cell `c` of that group equals `r`'s value and the
companion source column names exactly `r`'s provider. -/
theorem squash_priority_first_non_null (prio : String → ℤ) (df : List SourceRow) :
    ((squash_df prio df).map fun o => (o.station, o.time)) = (df.map rowKey).dedup
    ∧ ((squash_df prio df).map fun o => (o.station, o.time)).Nodup
    ∧ (∀ (c : String) (r : SourceRow), r ∈ df → (r.cells c).isSome →
        (∀ r' ∈ df, r'.station = r.station → r'.time = r.time →
          (r'.cells c).isSome = true → r' = r ∨ prio r'.source < prio r.source) →
        ∃ o ∈ squash_df prio df, o.station = r.station ∧ o.time = r.time
          ∧ o.cells c = r.cells c ∧ o.src c = some r.source) := by
  have hkeys : ((squash_df prio df).map fun o => (o.station, o.time)) =
      (df.map rowKey).dedup := by
    rw [squash_df, List.map_map]
    exact List.map_id _
  refine ⟨hkeys, by rw [hkeys]; exact List.nodup_dedup _, ?_⟩
  intro c r hr hsome hmax
  set k : String × ℕ := rowKey r with hk
  set g : List SourceRow := (groupRows df k).insertionSort (prioDescRel prio) with hg
  have hgmem : ∀ {x : SourceRow}, x ∈ g ↔ x ∈ df ∧ rowKey x = k := by
    intro x
    rw [hg, List.mem_insertionSort, groupRows, List.mem_filter]
    simp
  have hrg : r ∈ g := hgmem.mpr ⟨hr, rfl⟩
  have hsorted : g.Sorted (prioDescRel prio) :=
    List.sorted_insertionSort (prioDescRel prio) _
  have hfind : g.find? (fun x => (x.cells c).isSome) = some r := by
    apply find?_first_some prio c r g hsorted hrg hsome
    intro r' hr' h'
    obtain ⟨hr'df, hr'k⟩ := hgmem.mp hr'
    have hstation : r'.station = r.station := congrArg Prod.fst hr'k
    have htime : r'.time = r.time := congrArg Prod.snd hr'k
    exact hmax r' hr'df hstation htime h'
  refine ⟨squashGroup prio df k, ?_, rfl, rfl, ?_, ?_⟩
  · apply List.mem_map_of_mem
    rw [squashKeys, List.mem_dedup]
    exact List.mem_map_of_mem rowKey hr
  · show (g.find? fun x => (x.cells c).isSome).bind (fun x => x.cells c) = r.cells c
    rw [hfind]
    rfl
  · show (g.find? fun x => (x.cells c).isSome).map (fun x => x.source) = some r.source
    rw [hfind]
    rfl

/-- Witness for C1: with two sources on one `(station, time)`, the `temp`
cell and its source column come from the higher-priority provider. -/
theorem squash_priority_first_non_null_witness :
    sampleSquashRow2 ∈ sampleSquashDf
    ∧ (sampleSquashRow2.cells ("temp")).isSome = true
    ∧ (∃ o ∈ squash_df sampleSquashPrio sampleSquashDf,
        o.station = "10637" ∧ o.time = 0
          ∧ o.cells ("temp") = some 7 ∧ o.src ("temp") = some ("dwd")) := by
  have hmem : sampleSquashRow2 ∈ sampleSquashDf := by
    simp [sampleSquashDf]
  have hsome : (sampleSquashRow2.cells ("temp")).isSome = true := rfl
  have hmax : ∀ r' ∈ sampleSquashDf, r'.station = sampleSquashRow2.station →
      r'.time = sampleSquashRow2.time → (r'.cells ("temp")).isSome = true →
      r' = sampleSquashRow2 ∨
        sampleSquashPrio r'.source < sampleSquashPrio sampleSquashRow2.source := by
    intro r' hr' _ _ _
    rcases List.mem_cons.mp hr' with rfl | hr'
    · right
      decide
    · rcases List.mem_cons.mp hr' with rfl | h
      · left
        rfl
      · cases h
  obtain ⟨o, ho, h1, h2, h3, h4⟩ :=
    (squash_priority_first_non_null sampleSquashPrio sampleSquashDf).2.2
      "temp" sampleSquashRow2 hmem hsome hmax
  exact ⟨hmem, hsome, o, ho, h1, h2, by rw [h3]; rfl, h4⟩

end Meteostat
